import Mathlib

/-!
Shallow embedding of the option-surface construction pipeline of
`generate_option_mat.py` (with its peer `generate_equity_mat.py` and driver
`generate_all_mat_files.py`), together with theorems settling the spec's
claims about it.

Scalar values carried by the pandas/numpy code are IEEE doubles; the
embedding models a finite scalar as an element of a linearly ordered field
(instantiated at `ℝ`, or at `ℚ` where a concrete evaluation is needed) and a
possibly-missing scalar (NaN) as an `Option`.  Foreign numerical routines
(scipy's `brentq`, `norm.cdf`, and the evaluation of a fitted
`CloughTocher2DInterpolator`) are abstracted as function parameters; the
properties proved below hold for every behaviour of those routines, except
where a routine's documented failure condition is itself the subject of a
claim and is modelled explicitly.
-/

namespace OptionMat

/-! ## Series utilities (pandas Series operations used by the pipeline) -/

/-- Arithmetic mean of a list of reals, as pandas computes it on a complete
window of observations. -/
noncomputable def listMean (l : List ℝ) : ℝ := l.sum / l.length

/-- Sample standard deviation with one delta degree of freedom (the pandas
`Series.std` default) of a complete window of observations. -/
noncomputable def sampleStd (l : List ℝ) : ℝ :=
  Real.sqrt ((l.map (fun v => (v - listMean l) ^ 2)).sum / ((l.length : ℝ) - 1))

/-- Trailing window of width `w` ending at index `i` (inclusive), the window
pandas `Series.rolling(w)` aggregates once at least `w` observations exist. -/
def windowAt (w i : ℕ) (l : List ℝ) : List ℝ := (l.take (i + 1)).drop (i + 1 - w)

/-- Rolling sample standard deviation with window `w`, followed by
`fillna(0)`: positions with fewer than `w` observations so far, where pandas
emits NaN, become `0`. -/
noncomputable def rollingStdFill0 (w : ℕ) (l : List ℝ) : List ℝ :=
  (List.range l.length).map (fun i =>
    if w ≤ i + 1 then sampleStd (windowAt w i l) else 0)

/-- Source `compute_entropy` (generate_option_mat.py lines 34-35):
`np.log(1 + signal.rolling(window).std().fillna(0))`, window defaulting
to 5. -/
noncomputable def compute_entropy (signal : List ℝ) (window : ℕ := 5) : List ℝ :=
  (rollingStdFill0 window signal).map (fun v => Real.log (1 + v))

/-- Percentage change of a series followed by `fillna(0)` (line 64): the
first position, NaN in pandas, becomes `0`; position `i > 0` is
`(p_i - p_(i-1)) / p_(i-1)`. -/
noncomputable def pctChangeFill0 (l : List ℝ) : List ℝ :=
  (List.range l.length).map (fun i =>
    if i = 0 then 0 else (l.getD i 0 - l.getD (i - 1) 0) / l.getD (i - 1) 0)

/-- Entropy column of the option pipeline (line 66): `compute_entropy` is
applied to the raw `LTP` price series. -/
noncomputable def optionEntropyColumn (ltp : List ℝ) : List ℝ := compute_entropy ltp

/-- Spec-side definition, following the spec's words: rolling entropy as the
natural log of one plus the rolling standard deviation (window 5, missing
values filled to zero) of a given series; the spec applies it to the
quote-to-quote return series. -/
noncomputable def rollingEntropySpecSide (series : List ℝ) : List ℝ :=
  (rollingStdFill0 5 series).map (fun v => Real.log (1 + v))

/-! ## Pricer and implied-volatility solver (lines 11-28) -/

/-- Source `black_scholes_price` (lines 11-18). `Phi` is scipy's
`norm.cdf`, a foreign numeric routine kept as a parameter; the term
`1e-8` in the denominator of `d1` is the source's epsilon guard. -/
noncomputable def black_scholes_price (Phi : ℝ → ℝ)
    (S K T r sigma : ℝ) (option_type : String) : ℝ :=
  let d1 := (Real.log (S / K) + (r + 0.5 * sigma ^ 2) * T) /
    (sigma * Real.sqrt T + 1e-8)
  let d2 := d1 - sigma * Real.sqrt T
  if option_type = "CE" then
    S * Phi d1 - K * Real.exp (-(r * T)) * Phi d2
  else
    K * Real.exp (-(r * T)) * Phi (-d2) - S * Phi (-d1)

/-- Failure modes of scipy's `brentq`: `ValueError` when the bracket holds no
sign change, `RuntimeError` when the iteration budget is exhausted.  Both are
subclasses of `Exception` and so are caught by the source's handler. -/
inductive BrentError where
  | noSignChange
  | maxIterExceeded
deriving DecidableEq

/-- Source `implied_volatility` (lines 20-28): calls `brentq` on the pricing
residual over the bracket `(1e-6, 5.0)` with `maxiter=100`, and converts any
raised exception into the NaN sentinel (`none`).  `brentq` itself is a
foreign floating-point root finder, abstracted as a fallible function
parameter; the `Except` result models normal return versus raised
exception. -/
noncomputable def implied_volatility
    (brentq : (ℝ → ℝ) → ℝ → ℝ → ℕ → Except BrentError ℝ) (Phi : ℝ → ℝ)
    (S K T r market_price : ℝ) (option_type : String := "CE") : Option ℝ :=
  match brentq
      (fun sigma => black_scholes_price Phi S K T r sigma option_type - market_price)
      1e-6 5.0 100 with
  | .ok v => some v
  | .error _ => none

/-! ## Quote loader & cleaner and spot aligner (lines 38-57) -/

/-- Raw tabular row after numeric/timestamp coercion (lines 39-42, 46):
fields whose coercion failed are `none`. Timestamps are modelled as
integers (ordering is all the pipeline uses). -/
structure RawQuote where
  timestamp : Option ℤ
  strikePrice : Option ℝ
  ltp : Option ℝ
  buyPrice : Option ℝ
  openInterest : Option ℝ
  dte : Option ℝ
  optionsType : String

/-- Quote surviving the cleaning stage: LTP, StrikePrice and Timestamp are
guaranteed present. -/
structure Quote where
  timestamp : ℤ
  strikePrice : ℝ
  ltp : ℝ
  buyPrice : Option ℝ
  openInterest : Option ℝ
  dte : Option ℝ
  optionsType : String

/-- Loader & cleaner (lines 38-47): rows missing LTP or StrikePrice are
dropped (line 43), then rows with an unparseable Timestamp are dropped
(line 47).  No sorting happens in this stage: surviving rows keep the input
file order. -/
def cleanQuotes (rows : List RawQuote) : List Quote :=
  rows.filterMap (fun r =>
    match r.ltp, r.strikePrice with
    | some l, some k =>
      match r.timestamp with
      | some t => some ⟨t, k, l, r.buyPrice, r.openInterest, r.dte, r.optionsType⟩
      | none => none
    | _, _ => none)

/-- Row of the optional underlying-equity series (lines 51-53), reduced to
the two columns the aligner uses. -/
structure EqtRow where
  timestamp : ℤ
  ltp : ℝ

/-- Quote annotated with its aligned spot price. -/
structure SpotQuote where
  quote : Quote
  spot : Option ℝ

/-- Backward as-of lookup performed by `pd.merge_asof` (line 54): the most
recent equity observation at or before the given timestamp, the equity
series having been sorted by timestamp first as in the source. -/
def asofSpot (eqt : List EqtRow) (t : ℤ) : Option ℝ :=
  (((eqt.mergeSort (fun a b => decide (a.timestamp ≤ b.timestamp))).filter
    (fun e => decide (e.timestamp ≤ t))).getLast?).map EqtRow.ltp

/-- Forward fill of a possibly-missing series, carrying the last present
value into subsequent missing positions (line 55's ffill). -/
def ffillAux : Option ℝ → List (Option ℝ) → List (Option ℝ)
  | _, [] => []
  | prev, v :: rest =>
    match v with
    | some x => some x :: ffillAux (some x) rest
    | none => prev :: ffillAux prev rest

/-- Forward fill starting from no prior observation. -/
def ffill (l : List (Option ℝ)) : List (Option ℝ) := ffillAux none l

/-- Equity branch of the spot aligner (lines 50-55): the option rows are
sorted by timestamp (inside the `merge_asof` call, line 54), each is given
the backward as-of spot, and the spot column is forward-filled (line 55).
The fallback branch (line 57) instead sets spot to the row's own strike
price and leaves the row order unchanged. -/
def alignSpotWithEqt (e : List EqtRow) (qs : List Quote) : List SpotQuote :=
  let sorted := qs.mergeSort (fun a b => decide (a.timestamp ≤ b.timestamp))
  let spots := ffill (sorted.map (fun q => asofSpot e q.timestamp))
  List.zipWith (fun q s => SpotQuote.mk q s) sorted spots

/-- Spot aligner entry point (lines 49-57), dispatching on whether an
equity series was supplied (the `eqt_file` default-None argument). -/
def alignSpot (eqt : Option (List EqtRow)) (qs : List Quote) : List SpotQuote :=
  match eqt with
  | some e => alignSpotWithEqt e qs
  | none => qs.map (fun q => SpotQuote.mk q (some q.strikePrice))

/-! ## Per-batch implied-volatility step (lines 71-76) -/

/-- IV column step (lines 71-76): the row-wise implied-volatility solve runs
only under `if IV not in df.columns` — a per-batch test on the presence of
the column, not a per-row test on missing values.  `ivCol = none` models an
input file with no IV column; `ivCol = some col` models a present column
whose individual entries may still be missing (`none`).  `solve` abstracts
the row-wise `implied_volatility` call of lines 73-76. -/
def ivColumnStep (solve : Quote → Option ℝ)
    (ivCol : Option (List (Option ℝ))) (quotes : List Quote) : List (Option ℝ) :=
  match ivCol with
  | some col => col
  | none => quotes.map solve

/-! ## Scattered interpolation model (CloughTocher2DInterpolator) -/

/-- Failure raised by the interpolant constructor. -/
inductive InterpError where
  | insufficientPoints
deriving DecidableEq

/-- Fitted scattered interpolant: the constructor's inputs.  Evaluation is
kept abstract (a function parameter at each use site); no claim below
depends on interpolated values. -/
structure CT2D where
  pts : List (ℝ × ℝ)
  vals : List ℝ

/-- Model of the `CloughTocher2DInterpolator` constructor: the underlying
2-D Delaunay triangulation (Qhull) raises when given fewer than three input
points, and the source never catches that exception.  (Qhull can also fail
on three or more degenerate, e.g. collinear, points; only the point-count
condition — the one the claims quantify over — is modelled.) -/
def ctFit (pts : List (ℝ × ℝ)) (vals : List ℝ) : Except InterpError CT2D :=
  if pts.length < 3 then .error .insufficientPoints else .ok ⟨pts, vals⟩

/-- Row view used by the IV gap-fill step: the two coordinates and the
(possibly missing) implied volatility. -/
structure IVPoint where
  logMoneyness : Option ℝ
  tNormalized : Option ℝ
  iv : Option ℝ

/-- Rows of `iv_valid` (line 79): coordinate pair and value, keeping only
rows where nothing is missing. -/
def ivValidPoints (rows : List IVPoint) : List ((ℝ × ℝ) × ℝ) :=
  rows.filterMap (fun p =>
    match p.logMoneyness, p.tNormalized, p.iv with
    | some x, some t, some v => some ((x, t), v)
    | _, _, _ => none)

/-- IV gap-fill step (lines 78-86): when `iv_valid` is nonempty
(`len(iv_valid) > 0`, line 80) the interpolant is fitted — which raises,
uncaught, for one or two points — and each missing IV is replaced by the
interpolant's value at the row's coordinates (`fillna`, line 86); rows whose
IV is present are untouched.  When `iv_valid` is empty the step does
nothing.  `evalCT` abstracts evaluation of the fitted interpolant (it
returns `none` for NaN, e.g. outside the convex hull or at NaN
coordinates). -/
def ivFillStep (evalCT : CT2D → ℝ → ℝ → Option ℝ) (rows : List IVPoint) :
    Except InterpError (List IVPoint) :=
  let valid := ivValidPoints rows
  if 0 < valid.length then
    match ctFit (valid.map Prod.fst) (valid.map Prod.snd) with
    | .error e => .error e
    | .ok f => .ok (rows.map (fun p =>
        match p.iv with
        | some v => ⟨p.logMoneyness, p.tNormalized, some v⟩
        | none =>
          match p.logMoneyness, p.tNormalized with
          | some x, some t => ⟨some x, some t, evalCT f x t⟩
          | _, _ => p))
  else .ok rows

/-- Rows surviving the dropna of `interpolate(field)` (line 99): rows with
a missing coordinate or missing field value are dropped. -/
def fieldValidPoints (rows : List ((Option ℝ × Option ℝ) × Option ℝ)) :
    List ((ℝ × ℝ) × ℝ) :=
  rows.filterMap (fun r =>
    match r.1.1, r.1.2, r.2 with
    | some x, some t, some v => some ((x, t), v)
    | _, _, _ => none)

/-- Field interpolation helper `interpolate(field)` continued: the actual
fit-and-evaluate, with no guard at all on how many points remain. -/
def interpolateField (evalCT : CT2D → ℝ → ℝ → Option ℝ)
    (rows : List ((Option ℝ × Option ℝ) × Option ℝ))
    (xg tg : List ℝ) : Except InterpError (List (List (Option ℝ))) :=
  let d := fieldValidPoints rows
  match ctFit (d.map Prod.fst) (d.map Prod.snd) with
  | .error e => .error e
  | .ok f => .ok (tg.map (fun t => xg.map (fun x => evalCT f x t)))

/-! ## Time normalization (lines 61-62) -/

/-- Float division as numpy/pandas perform it in the time normalization
(line 62): a zero denominator never raises; it yields a non-real result
(NaN for `0/0`, a signed infinity otherwise), modelled as `none`. -/
def fdiv {α : Type} [DivisionRing α] [DecidableEq α] (a b : α) : Option α :=
  if b = 0 then none else some (a / b)

/-- Normalized-time column (line 62): each DTE divided by the column
maximum, with no guard against a zero maximum. -/
def tNormalizedColumn {α : Type} [LinearOrderedField α] [DecidableEq α]
    (dte : List α) : List (Option α) :=
  let m := (dte.maximum).unbot' 0
  dte.map (fun d => fdiv d m)

/-! ## Grid builder (lines 94-96) -/

/-- Grid coordinate vector (lines 94-95): `np.sort(Series.unique())`, the
ascending sort of the distinct values observed in a column. -/
def uniqueSorted {α : Type} [LinearOrder α] [DecidableEq α] (l : List α) : List α :=
  l.toFinset.sort (fun a b => a ≤ b)

/-! ## Tensor assembly and validity mask (lines 103-127) -/

/-- Elementwise strictly-positive test with numpy comparison semantics
(line 117): a NaN cell (`none`) compares as not greater than zero. -/
def floatGtZero {α : Type} [LinearOrder α] [Zero α] : Option α → Bool
  | none => false
  | some v => decide (0 < v)

/-- Validity mask (line 117): `(uu_re > 0).astype(float32)` applied cell by
cell to the interpolated price grid. -/
def maskGrid {α : Type} [LinearOrder α] [Zero α]
    (uuRe : List (List (Option α))) : List (List ℕ) :=
  uuRe.map (fun row => row.map (fun v => if floatGtZero v then 1 else 0))

/-- Channel stacking along the last axis (lines 107-115): cell `(i, j)` of
the result collects that cell from each field grid in order. -/
def stackFeatures {α : Type} (gs : List (List (List (Option α))))
    (nT nX : ℕ) : List (List (List (Option α))) :=
  (List.range nT).map (fun i => (List.range nX).map (fun j =>
    gs.map (fun g => (g.getD i []).getD j none)))

/-- Output tensor container (lines 119-127).  `uu` holds the real
(interpolated price) and imaginary (interpolated ImPsi) components of each
cell as a pair. -/
structure MatData (α : Type) where
  x : List α
  tt : List α
  uu : List (List (Option α × Option α))
  features : List (List (List (Option α)))
  mask : List (List ℕ)
  symbol : String
  expiry : String

/-- Tensor assembler (lines 103-127): combines the real and imaginary
interpolations into `uu` (line 105), stacks the seven feature channels
(lines 107-115), derives the mask from the interpolated price grid
(line 117), and writes the container entries (lines 119-127) — the `symbol`
entry is the string literal of line 125, whatever the arguments are. -/
def assembleMatData {α : Type} [LinearOrder α] [Zero α]
    (xGrid tGrid : List α) (uuRe uuIm : List (List (Option α)))
    (featureGrids : List (List (List (Option α)))) (expiry : String) :
    MatData α :=
  { x := xGrid
    tt := tGrid
    uu := List.zipWith (fun rr ri => rr.zip ri) uuRe uuIm
    features := stackFeatures featureGrids tGrid.length xGrid.length
    mask := maskGrid uuRe
    symbol := "RELIANCE"
    expiry := expiry }

/-! ## Claim theorems -/

/-- C10: for every invocation of the option-surface builder, the `symbol`
entry written to the output tensor container equals the constant string
RELIANCE, independent of the input data and of every argument supplied: the
symbol is not derived from the data. -/
theorem symbol_constant_reliance {α : Type} [LinearOrder α] [Zero α]
    (xGrid tGrid : List α) (uuRe uuIm : List (List (Option α)))
    (featureGrids : List (List (List (Option α)))) (expiry : String) :
    (assembleMatData xGrid tGrid uuRe uuIm featureGrids expiry).symbol
      = "RELIANCE" := rfl

/-- C3 amended: the decision to run the implied-volatility solver is made
per batch — on the presence of the IV column — not per quote: when the
input carries an IV column it is used unchanged, so a quote with a missing
IV value is not solved even when other quotes carry supplied values; only
when the column is absent is the solver invoked, once for every quote. -/
theorem iv_solve_decision_is_batch_level (solve : Quote → Option ℝ)
    (col : List (Option ℝ)) (quotes : List Quote) :
    ivColumnStep solve (some col) quotes = col ∧
    ivColumnStep solve none quotes = quotes.map solve :=
  ⟨rfl, rfl⟩

/-- C3 counterexample: a batch whose input carries an IV column holding one
supplied and one missing entry, with a solver that returns a value for
every quote.  The missing entry comes out unchanged (`none`): the solver is
not invoked for it, refuting the claim that a quote with a missing IV is
solved whenever other quotes carry supplied values. -/
theorem iv_missing_not_solved_counterexample :
    ivColumnStep (fun _ => some 1) (some [some 0.2, none])
      [⟨0, 2500, 120, none, none, none, "CE"⟩,
       ⟨0, 2600, 80, none, none, none, "CE"⟩]
      = [some 0.2, none] ∧
    (none : Option ℝ) ≠ some 1 :=
  ⟨rfl, by simp⟩

/-- C2 amended: the per-quote rolling entropy equals the natural log of one
plus the rolling standard deviation (window 5, missing values filled to
zero) of the RAW last-traded-price series — a function of the price level,
not of the quote-to-quote return series. -/
theorem entropy_is_of_price_level (ltp : List ℝ) :
    optionEntropyColumn ltp = rollingEntropySpecSide ltp := rfl

/-- C8: the implied-volatility solver never propagates an exception: for
every input and every behaviour of the underlying root finder, a raised
error (no sign change in the bracket `(1e-6, 5.0)`, or the 100-iteration
budget exhausted) yields the NaN sentinel `none`, and a normal return is
passed through unchanged. -/
theorem implied_volatility_never_raises
    (brentq : (ℝ → ℝ) → ℝ → ℝ → ℕ → Except BrentError ℝ) (Phi : ℝ → ℝ)
    (S K T r market_price : ℝ) (option_type : String) :
    (∀ e : BrentError,
      brentq (fun sigma =>
          black_scholes_price Phi S K T r sigma option_type - market_price)
        1e-6 5.0 100 = .error e →
      implied_volatility brentq Phi S K T r market_price option_type = none) ∧
    (∀ v : ℝ,
      brentq (fun sigma =>
          black_scholes_price Phi S K T r sigma option_type - market_price)
        1e-6 5.0 100 = .ok v →
      implied_volatility brentq Phi S K T r market_price option_type = some v) := by
  constructor
  · intro e h
    simp [implied_volatility, h]
  · intro v h
    simp [implied_volatility, h]

/-- C8 witness: concrete instantiations of both branches — a root finder
that raises produces the NaN sentinel, one that returns a root has its
value passed through. -/
theorem implied_volatility_never_raises_witness :
    implied_volatility (fun _ _ _ _ => .error .noSignChange) id
      100 100 1 0.05 10 "CE" = none ∧
    implied_volatility (fun _ _ _ _ => .ok 0.25) id
      100 100 1 0.05 10 "CE" = some 0.25 :=
  ⟨(implied_volatility_never_raises (fun _ _ _ _ => .error .noSignChange) id
      100 100 1 0.05 10 "CE").1 .noSignChange rfl,
   (implied_volatility_never_raises (fun _ _ _ _ => .ok 0.25) id
      100 100 1 0.05 10 "CE").2 0.25 rfl⟩

/-- C4 counterexample: a batch with exactly one fully valid (coordinates
and IV) row.  `iv_valid` is nonempty, so the `len > 0` guard admits it, and
the interpolant constructor raises on a single point: the filling step
errors instead of being skipped. -/
theorem iv_fill_single_point_counterexample :
    ivFillStep (fun _ _ _ => none) [⟨some 0, some 1, some 0.3⟩]
      = .error .insufficientPoints := rfl

/-- C5 counterexample: a batch whose rows all have DTE 0, so the maximum
DTE is 0.  The normalization step is a total function — there is no
DomainError channel anywhere in the pipeline — and it returns the non-real
(NaN) sentinel for every row instead of failing. -/
theorem t_normalized_zero_max_counterexample :
    tNormalizedColumn ([0, 0] : List ℚ) = [none, none] := by decide

/-- C5 amended: when the maximum DTE over the batch is zero, the pipeline
run does not fail — the normalization step is total — and every
normalized-time entry silently becomes the non-real (NaN) sentinel. -/
theorem t_normalized_zero_max_is_nan (dte : List ℝ) (hne : dte ≠ [])
    (h0 : ∀ d ∈ dte, d = 0) :
    tNormalizedColumn dte = dte.map (fun _ => none) := by
  have hmax : dte.maximum = ((0 : ℝ) : WithBot ℝ) := by
    rw [List.maximum_eq_coe_iff]
    refine ⟨?_, fun a ha => le_of_eq (h0 a ha)⟩
    obtain ⟨a, l, rfl⟩ := List.exists_cons_of_ne_nil hne
    have ha := h0 a (List.mem_cons_self a l)
    rw [← ha]
    exact List.mem_cons_self a l
  simp [tNormalizedColumn, hmax, fdiv]

/-- C5 witness: the amended theorem applied to the concrete all-zero batch
[0, 0]. -/
theorem t_normalized_zero_max_is_nan_witness :
    (([0, 0] : List ℝ) ≠ [] ∧ ∀ d ∈ ([0, 0] : List ℝ), d = 0) ∧
    tNormalizedColumn ([0, 0] : List ℝ) = [none, none] :=
  have h1 : ([0, 0] : List ℝ) ≠ [] := by simp
  have h2 : ∀ d ∈ ([0, 0] : List ℝ), d = 0 := by intro d hd; simpa using hd
  ⟨⟨h1, h2⟩, (t_normalized_zero_max_is_nan [0, 0] h1 h2).trans rfl⟩

/-- C7: the grid coordinate vectors built from the observed log-moneyness
and normalized-time columns (modelled as real-valued, i.e. the valid quote
sets the claim quantifies over) have exactly as many entries as there are
distinct observed values, contain no duplicates, and are strictly
increasing. -/
theorem grid_vectors_unique_sorted (logM tN : List ℝ) :
    ((uniqueSorted logM).length = logM.dedup.length ∧
      (uniqueSorted logM).Nodup ∧
      (uniqueSorted logM).Sorted (fun a b => a < b)) ∧
    ((uniqueSorted tN).length = tN.dedup.length ∧
      (uniqueSorted tN).Nodup ∧
      (uniqueSorted tN).Sorted (fun a b => a < b)) := by
  refine ⟨⟨?_, ?_, ?_⟩, ⟨?_, ?_, ?_⟩⟩
  · rw [uniqueSorted, Finset.length_sort, List.card_toFinset]
  · exact Finset.sort_nodup _ _
  · exact Finset.sort_sorted_lt _
  · rw [uniqueSorted, Finset.length_sort, List.card_toFinset]
  · exact Finset.sort_nodup _ _
  · exact Finset.sort_sorted_lt _

/-- C4 amended: the IV gap-fill step is skipped, leaving prior values
untouched, only when there are zero valid fit points; with one or two
valid points — still fewer than scattered piecewise-cubic interpolation
needs — the `len > 0` guard admits them and the interpolant constructor
raises, failing the run; and the per-field grid interpolation step has no
guard at all and likewise raises whenever fewer than three valid points
remain for the field. -/
theorem insufficient_fit_points_raise (evalCT : CT2D → ℝ → ℝ → Option ℝ)
    (rows : List IVPoint) (frows : List ((Option ℝ × Option ℝ) × Option ℝ))
    (xg tg : List ℝ) :
    ((ivValidPoints rows).length = 0 → ivFillStep evalCT rows = .ok rows) ∧
    (0 < (ivValidPoints rows).length → (ivValidPoints rows).length < 3 →
      ivFillStep evalCT rows = .error .insufficientPoints) ∧
    ((fieldValidPoints frows).length < 3 →
      interpolateField evalCT frows xg tg = .error .insufficientPoints) := by
  refine ⟨?_, ?_, ?_⟩
  · intro h
    simp [ivFillStep, h]
  · intro hpos h3
    have hfit : ctFit ((ivValidPoints rows).map Prod.fst)
        ((ivValidPoints rows).map Prod.snd) = .error .insufficientPoints := by
      rw [ctFit, if_pos]
      rwa [List.length_map]
    simp [ivFillStep, hpos, hfit]
  · intro h3
    have hfit : ctFit ((fieldValidPoints frows).map Prod.fst)
        ((fieldValidPoints frows).map Prod.snd) = .error .insufficientPoints := by
      rw [ctFit, if_pos]
      rwa [List.length_map]
    simp [interpolateField, hfit]

/-- C4 witness: the amended theorem applied to concrete batches — an empty
valid set is skipped, a two-point valid set makes the fill step raise, and
a field with no valid points makes the grid interpolation raise. -/
theorem insufficient_fit_points_raise_witness :
    ((ivValidPoints ([] : List IVPoint)).length = 0 ∧
      ivFillStep (fun _ _ _ => none) ([] : List IVPoint) = .ok []) ∧
    (0 < (ivValidPoints
        [⟨some 0, some 0, some 1⟩, ⟨some 1, some 0, some 1⟩]).length ∧
      (ivValidPoints
        [⟨some 0, some 0, some 1⟩, ⟨some 1, some 0, some 1⟩]).length < 3 ∧
      ivFillStep (fun _ _ _ => none)
        [⟨some 0, some 0, some 1⟩, ⟨some 1, some 0, some 1⟩]
        = .error .insufficientPoints) ∧
    ((fieldValidPoints []).length < 3 ∧
      interpolateField (fun _ _ _ => none) [] [] []
        = .error .insufficientPoints) :=
  have h2a : 0 < (ivValidPoints
      [⟨some 0, some 0, some 1⟩, ⟨some 1, some 0, some 1⟩]).length := by decide
  have h2b : (ivValidPoints
      [⟨some 0, some 0, some 1⟩, ⟨some 1, some 0, some 1⟩]).length < 3 := by decide
  have h3a : (fieldValidPoints []).length < 3 := by decide
  ⟨⟨rfl, (insufficient_fit_points_raise (fun _ _ _ => none) [] [] [] []).1 rfl⟩,
   ⟨h2a, h2b, (insufficient_fit_points_raise (fun _ _ _ => none)
      [⟨some 0, some 0, some 1⟩, ⟨some 1, some 0, some 1⟩] [] [] []).2.1 h2a h2b⟩,
   ⟨h3a, (insufficient_fit_points_raise (fun _ _ _ => none) [] [] [] []).2.2 h3a⟩⟩

/-- Forward fill preserves the length of the series. -/
theorem ffillAux_length (p : Option ℝ) (l : List (Option ℝ)) :
    (ffillAux p l).length = l.length := by
  induction l generalizing p with
  | nil => rfl
  | cons v rest ih => cases v <;> simp [ffillAux, ih]

/-- Forward fill of a series has the series' length. -/
theorem ffill_length (l : List (Option ℝ)) : (ffill l).length = l.length :=
  ffillAux_length none l

/-- Zipping that only keeps a function of the first component recovers the
map over the first list when the second list is long enough. -/
theorem zipWith_const_snd {α β γ : Type} (f : α → γ) (l1 : List α)
    (l2 : List β) (h : l1.length ≤ l2.length) :
    List.zipWith (fun a _ => f a) l1 l2 = l1.map f := by
  induction l1 generalizing l2 with
  | nil => simp
  | cons a l ih =>
    cases l2 with
    | nil => simp at h
    | cons b bs =>
      simp only [List.zipWith, List.map_cons, List.cons.injEq, true_and]
      exact ih bs (by simpa using h)

/-- C9 amended: the dataset entering feature derivation is ordered by
timestamp only when an underlying equity series is supplied — the as-of
merge sorts it — while without one the cleaned rows keep the input file
order unchanged, so they are time-ordered only if the file already was. -/
theorem time_ordered_only_with_equity (eqt : Option (List EqtRow))
    (qs : List Quote) :
    (∀ e, eqt = some e →
      List.Sorted (fun a b => a ≤ b)
        ((alignSpot eqt qs).map (fun s => s.quote.timestamp))) ∧
    (eqt = none → (alignSpot eqt qs).map (fun s => s.quote) = qs) := by
  constructor
  · rintro e rfl
    show List.Sorted _ ((alignSpotWithEqt e qs).map _)
    unfold alignSpotWithEqt
    rw [List.map_zipWith]
    have hlen : (qs.mergeSort (fun a b => decide (a.timestamp ≤ b.timestamp))).length ≤
        (ffill ((qs.mergeSort (fun a b => decide (a.timestamp ≤ b.timestamp))).map
          (fun q => asofSpot e q.timestamp))).length := by
      rw [ffill_length, List.length_map]
    rw [show List.zipWith
        (fun q s => (SpotQuote.mk q s).quote.timestamp)
        (qs.mergeSort (fun a b => decide (a.timestamp ≤ b.timestamp)))
        (ffill ((qs.mergeSort (fun a b => decide (a.timestamp ≤ b.timestamp))).map
          (fun q => asofSpot e q.timestamp)))
        = (qs.mergeSort (fun a b => decide (a.timestamp ≤ b.timestamp))).map
            (fun q => q.timestamp) from
      zipWith_const_snd (fun q => q.timestamp) _ _ hlen]
    show List.Pairwise _ _
    rw [List.pairwise_map]
    have hs := @List.sorted_mergeSort Quote
      (fun a b : Quote => decide (a.timestamp ≤ b.timestamp))
      (fun a b c hab hbc =>
        decide_eq_true (le_trans (of_decide_eq_true hab) (of_decide_eq_true hbc)))
      (fun a b => by
        rcases le_total a.timestamp b.timestamp with h | h <;>
          simp [decide_eq_true h])
      qs
    exact hs.imp (fun h => of_decide_eq_true h)
  · rintro rfl
    show (qs.map (fun q => SpotQuote.mk q (some q.strikePrice))).map _ = qs
    rw [List.map_map]
    exact List.map_id qs

/-- C9 witness: the amended theorem applied to a concrete two-row batch —
with an equity series the result is sorted by timestamp, and without one a
cleaned row list is returned in its original order. -/
theorem time_ordered_only_with_equity_witness :
    List.Sorted (fun a b => a ≤ b)
      ((alignSpot (some [⟨0, 2500⟩])
        [⟨2, 2500, 120, none, none, none, "CE"⟩,
         ⟨1, 2600, 80, none, none, none, "CE"⟩]).map
        (fun s => s.quote.timestamp)) ∧
    (alignSpot none [⟨2, 2500, 120, none, none, none, "CE"⟩]).map
        (fun s => s.quote)
      = [⟨2, 2500, 120, none, none, none, "CE"⟩] :=
  ⟨(time_ordered_only_with_equity (some [⟨0, 2500⟩])
      [⟨2, 2500, 120, none, none, none, "CE"⟩,
       ⟨1, 2600, 80, none, none, none, "CE"⟩]).1 _ rfl,
   (time_ordered_only_with_equity none
      [⟨2, 2500, 120, none, none, none, "CE"⟩]).2 rfl⟩

/-- C9 counterexample: two clean rows arriving with timestamps 2 then 1 and
no equity series supplied.  The dataset entering feature derivation keeps
the file order [2, 1]: it is not time-ordered, refuting the claim that the
quote set is ordered by timestamp regardless of whether an underlying
series is supplied. -/
theorem unsorted_without_equity_counterexample :
    ((alignSpot none (cleanQuotes
      [⟨some 2, some 2500, some 120, none, none, none, "CE"⟩,
       ⟨some 1, some 2600, some 80, none, none, none, "CE"⟩])).map
        (fun s => s.quote.timestamp)) = [2, 1] ∧
    ¬ List.Sorted (fun a b => a ≤ b) ([2, 1] : List ℤ) :=
  ⟨rfl, by decide⟩

/-- C6: in every assembled surface tensor, the mask cell at (i, j) is 1
exactly when the interpolated real price grid holds a real value strictly
greater than zero there — a NaN cell (`none`) counts as not greater than
zero — and every mask cell is 1 or 0. -/
theorem mask_iff_positive_interpolated_price {α : Type} [LinearOrder α]
    [Zero α] (xGrid tGrid : List α) (uuRe uuIm : List (List (Option α)))
    (featureGrids : List (List (List (Option α)))) (expiry : String)
    (i j : ℕ) :
    ((((assembleMatData xGrid tGrid uuRe uuIm featureGrids
        expiry).mask.getD i []).getD j 0 = 1) ↔
      ∃ v, (uuRe.getD i []).getD j none = some v ∧ 0 < v) ∧
    ((((assembleMatData xGrid tGrid uuRe uuIm featureGrids
        expiry).mask.getD i []).getD j 0 = 1) ∨
      (((assembleMatData xGrid tGrid uuRe uuIm featureGrids
        expiry).mask.getD i []).getD j 0 = 0)) := by
  have hmask : (assembleMatData xGrid tGrid uuRe uuIm featureGrids
      expiry).mask = maskGrid uuRe := rfl
  rw [hmask]
  rcases hrow : uuRe[i]? with _ | row
  · have h1 : (maskGrid uuRe)[i]? = none := by
      rw [maskGrid, List.getElem?_map, hrow]
      rfl
    have h2 : uuRe.getD i [] = [] := by
      rw [List.getD_eq_getElem?_getD, hrow]
      rfl
    rw [List.getD_eq_getElem?_getD (maskGrid uuRe), h1, h2]
    simp
  · have h1 : (maskGrid uuRe)[i]?
        = some (row.map (fun v => if floatGtZero v then 1 else 0)) := by
      rw [maskGrid, List.getElem?_map, hrow]
      rfl
    have h2 : uuRe.getD i [] = row := by
      rw [List.getD_eq_getElem?_getD, hrow]
      rfl
    rw [List.getD_eq_getElem?_getD (maskGrid uuRe), h1, h2, Option.getD_some]
    rcases hcell : row[j]? with _ | v
    · have h3 : (row.map (fun v => if floatGtZero v then 1 else 0))[j]?
          = none := by
        rw [List.getElem?_map, hcell]
        rfl
      rw [List.getD_eq_getElem?_getD, h3, List.getD_eq_getElem?_getD, hcell]
      simp
    · have h3 : (row.map (fun v => if floatGtZero v then 1 else 0))[j]?
          = some (if floatGtZero v then 1 else 0) := by
        rw [List.getElem?_map, hcell]
        rfl
      rw [List.getD_eq_getElem?_getD, h3, List.getD_eq_getElem?_getD, hcell]
      cases v with
      | none => simp [floatGtZero]
      | some x =>
        by_cases hx : 0 < x
        · simp [floatGtZero, hx]
        · simp [floatGtZero, hx]

/-- C2 counterexample: on the price series [1, 2, 4, 4, 4] the pipeline's
entropy at the fifth quote is ln(1 + sqrt 2) — the rolling standard
deviation of the prices themselves — while the claimed formula over the
return series [0, 1, 1, 0, 0] gives ln(1 + sqrt (3/10)); the two columns
differ. -/
theorem entropy_not_of_returns_counterexample :
    optionEntropyColumn [1, 2, 4, 4, 4] ≠
      rollingEntropySpecSide (pctChangeFill0 [1, 2, 4, 4, 4]) := by
  intro h
  have h4 := congrArg (fun l : List ℝ => l.getD 4 0) h
  have e1 : (optionEntropyColumn [1, 2, 4, 4, 4]).getD 4 0
      = Real.log (1 + Real.sqrt 2) := by
    have hr : List.range ([1, 2, 4, 4, 4] : List ℝ).length = [0, 1, 2, 3, 4] := rfl
    have hw : windowAt 5 4 [(1 : ℝ), 2, 4, 4, 4] = [1, 2, 4, 4, 4] := rfl
    have hm : listMean [(1 : ℝ), 2, 4, 4, 4] = 3 := by
      simp [listMean]
      norm_num
    have hs : sampleStd [(1 : ℝ), 2, 4, 4, 4] = Real.sqrt 2 := by
      rw [sampleStd, hm]
      norm_num
    simp only [optionEntropyColumn, compute_entropy, rollingStdFill0, hr,
      List.map_cons, List.map_nil, List.getD_cons_succ, List.getD_cons_zero]
    rw [if_pos (by norm_num), hw, hs]
  have e2 : (rollingEntropySpecSide (pctChangeFill0 [1, 2, 4, 4, 4])).getD 4 0
      = Real.log (1 + Real.sqrt (3 / 10)) := by
    have hp : pctChangeFill0 [(1 : ℝ), 2, 4, 4, 4] = [0, 1, 1, 0, 0] := by
      have hr : List.range ([1, 2, 4, 4, 4] : List ℝ).length = [0, 1, 2, 3, 4] := rfl
      simp only [pctChangeFill0, hr, List.map_cons, List.map_nil,
        List.getD_cons_succ, List.getD_cons_zero]
      norm_num
    rw [hp]
    have hr : List.range ([0, 1, 1, 0, 0] : List ℝ).length = [0, 1, 2, 3, 4] := rfl
    have hw : windowAt 5 4 [(0 : ℝ), 1, 1, 0, 0] = [0, 1, 1, 0, 0] := rfl
    have hm : listMean [(0 : ℝ), 1, 1, 0, 0] = 2 / 5 := by
      simp [listMean]
      norm_num
    have hs : sampleStd [(0 : ℝ), 1, 1, 0, 0] = Real.sqrt (3 / 10) := by
      rw [sampleStd, hm]
      norm_num
    simp only [rollingEntropySpecSide, rollingStdFill0, hr,
      List.map_cons, List.map_nil, List.getD_cons_succ, List.getD_cons_zero]
    rw [if_pos (by norm_num), hw, hs]
  simp only [e1, e2] at h4
  have hlt : Real.log (1 + Real.sqrt (3 / 10)) < Real.log (1 + Real.sqrt 2) := by
    apply Real.log_lt_log
    · have := Real.sqrt_nonneg (3 / 10 : ℝ)
      linarith
    · have := Real.sqrt_lt_sqrt (by norm_num : (0 : ℝ) ≤ 3 / 10)
        (by norm_num : (3 : ℝ) / 10 < 2)
      linarith
  exact absurd h4 (ne_of_gt hlt)

end OptionMat
